import Mathlib

/-!
# heliflight: `src/main/flight/pid.h`

A shallow embedding of the PID controller interface of heliflight: the constants, the
enumerations and the profile / output records declared in `pid.h`, together with models of the
functions that the header only declares (`pidController`, `applyItermRelax`, the rescue
sequencer).  Single precision values are embedded as exact rationals; where the specification
talks about non-finite values they are an absent rational.
-/

namespace Heliflight

/-! ## Machine integers -/

/-- The C type `uint8_t`: the naturals below `2 ^ 8`. -/
abbrev uint8_t : Type := Fin 256

/-- The C type `uint16_t`: the naturals below `2 ^ 16`. -/
abbrev uint16_t : Type := Fin 65536

/-! ## Constants (`pid.h`, lines 29-58) -/

def MAX_PID_PROCESS_DENOM : Nat := 16
def PID_CONTROLLER_BETAFLIGHT : Nat := 1

def PIDSUM_LIMIT : Nat := 500
def PIDSUM_LIMIT_YAW : Nat := 500
def PIDSUM_LIMIT_MIN : Nat := 100
def PIDSUM_LIMIT_MAX : Nat := 1000

def ROLL_PTERM_SCALE : ℚ := 0.0032029
def ROLL_ITERM_SCALE : ℚ := 0.0488762
def ROLL_DTERM_SCALE : ℚ := 0.0000529

def PITCH_PTERM_SCALE : ℚ := 0.0032029
def PITCH_ITERM_SCALE : ℚ := 0.0488762
def PITCH_DTERM_SCALE : ℚ := 0.0000529

def YAW_PTERM_SCALE : ℚ := 0.032029
def YAW_ITERM_SCALE : ℚ := 0.244381
def YAW_DTERM_SCALE : ℚ := 0.000529

def ROLL_FF_SCALE : ℚ := 0.00013754
def PITCH_FF_SCALE : ℚ := 0.00013754
def YAW_FF_SCALE : ℚ := 0.00013754

/-- Full iterm suppression in setpoint mode at high-passed setpoint rate > 40 deg/sec. -/
def ITERM_RELAX_SETPOINT_THRESHOLD : ℚ := 40.0
def ITERM_RELAX_CUTOFF_DEFAULT : Nat := 15

def ITERM_ACCELERATOR_GAIN_OFF : Nat := 1000
def ITERM_ACCELERATOR_GAIN_MAX : Nat := 30000

def MAX_PROFILE_NAME_LENGTH : Nat := 8

/-! ## Enumerations -/

/-- The enumeration `pidIndex_e`, with every enumerator of the header, the trailing count
enumerator included. -/
inductive pidIndex_e where
  | PID_ROLL
  | PID_PITCH
  | PID_YAW
  | PID_LEVEL
  | PID_MAG
  | PID_ITEM_COUNT
  deriving DecidableEq, Repr

/-- The integer value C gives each enumerator of `pidIndex_e` (none has an initialiser, so they
count up from zero). -/
def pidIndex_e.toNat : pidIndex_e → Nat
  | .PID_ROLL => 0
  | .PID_PITCH => 1
  | .PID_YAW => 2
  | .PID_LEVEL => 3
  | .PID_MAG => 4
  | .PID_ITEM_COUNT => 5

/-- The enumeration `pidSuperExpoYaw_e`. -/
inductive pidSuperExpoYaw_e where
  | SUPEREXPO_YAW_OFF
  | SUPEREXPO_YAW_ON
  | SUPEREXPO_YAW_ALWAYS
  deriving DecidableEq, Repr

/-- The enumeration `itermRelax_e`, the trailing count enumerator included. -/
inductive itermRelax_e where
  | ITERM_RELAX_OFF
  | ITERM_RELAX_RP
  | ITERM_RELAX_RPY
  | ITERM_RELAX_RP_INC
  | ITERM_RELAX_RPY_INC
  | ITERM_RELAX_COUNT
  deriving DecidableEq, Repr

/-- The integer value of each enumerator of `itermRelax_e`. -/
def itermRelax_e.toNat : itermRelax_e → Nat
  | .ITERM_RELAX_OFF => 0
  | .ITERM_RELAX_RP => 1
  | .ITERM_RELAX_RPY => 2
  | .ITERM_RELAX_RP_INC => 3
  | .ITERM_RELAX_RPY_INC => 4
  | .ITERM_RELAX_COUNT => 5

/-- The enumeration `itermRelaxType_e`, the trailing count enumerator included. -/
inductive itermRelaxType_e where
  | ITERM_RELAX_GYRO
  | ITERM_RELAX_SETPOINT
  | ITERM_RELAX_TYPE_COUNT
  deriving DecidableEq, Repr

/-- The integer value of each enumerator of `itermRelaxType_e`. -/
def itermRelaxType_e.toNat : itermRelaxType_e → Nat
  | .ITERM_RELAX_GYRO => 0
  | .ITERM_RELAX_SETPOINT => 1
  | .ITERM_RELAX_TYPE_COUNT => 2

/-! ## Records -/

/-- The record `pidf_t`: one gain set. -/
structure pidf_t where
  P : uint8_t
  I : uint8_t
  D : uint8_t
  F : uint16_t

/-- Number of bytes of the `profileName` buffer, `char profileName[MAX_PROFILE_NAME_LENGTH + 1]`. -/
abbrev profileName_size : Nat := MAX_PROFILE_NAME_LENGTH + 1

/-- Number of entries of the gain table, `pidf_t pid[PID_ITEM_COUNT]`. -/
abbrev pid_size : Nat := pidIndex_e.PID_ITEM_COUNT.toNat

/-- Number of entries of the output array, `pidAxisData_t pidData[3]`. -/
abbrev pidData_size : Nat := 3

/-- The record `pidProfile_t`, field by field in the order of the header.  The `char` buffer
`profileName` is kept as its bytes. -/
structure pidProfile_t where
  yaw_lowpass_hz : uint16_t
  dterm_lowpass_hz : uint16_t
  dterm_notch_hz : uint16_t
  dterm_notch_cutoff : uint16_t
  pid : Fin pid_size → pidf_t
  dterm_filter_type : uint8_t
  itermWindupPointPercent : uint8_t
  pidSumLimit : uint16_t
  pidSumLimitYaw : uint16_t
  levelAngleLimit : uint8_t
  horizon_tilt_effect : uint8_t
  horizon_tilt_expert_mode : uint8_t
  yawRateAccelLimit : uint16_t
  rateAccelLimit : uint16_t
  feedForwardTransition : uint8_t
  itermLimit : uint16_t
  dterm_lowpass2_hz : uint16_t
  iterm_rotation : uint8_t
  iterm_relax_type : uint8_t
  iterm_relax_cutoff : uint8_t
  iterm_relax : uint8_t
  acro_trainer_angle_limit : uint8_t
  acro_trainer_debug_axis : uint8_t
  acro_trainer_gain : uint8_t
  acro_trainer_lookahead_ms : uint16_t
  abs_control_gain : uint8_t
  abs_control_limit : uint8_t
  abs_control_error_limit : uint8_t
  abs_control_cutoff : uint8_t
  dterm_filter2_type : uint8_t
  dyn_lpf_dterm_min_hz : uint16_t
  dyn_lpf_dterm_max_hz : uint16_t
  thrustLinearization : uint8_t
  ff_boost : uint8_t
  profileName : Fin profileName_size → uint8_t
  ff_interpolate_sp : uint8_t
  ff_max_rate_limit : uint8_t
  ff_spike_limit : uint8_t
  ff_smooth_factor : uint8_t
  dyn_lpf_curve_expo : uint8_t
  vbat_sag_compensation : uint8_t
  yawColKf : uint16_t
  yawColPulseKf : uint16_t
  yawCycKf : uint16_t
  yawBaseThrust : uint16_t
  collective_ff_impulse_freq : uint16_t
  error_decay_always : uint8_t
  error_decay_rate : uint8_t
  rescue_collective : uint8_t
  rescue_collective_boost : uint8_t
  rescue_delay : uint8_t
  elevator_filter_gain : uint16_t
  elevator_filter_window_time : uint8_t
  elevator_filter_window_size : uint8_t
  elevator_filter_hz : uint8_t

/-- The record `pidConfig_t`. -/
structure pidConfig_t where
  pid_process_denom : uint8_t
  collective_reference : uint16_t

/-- The record `pidAxisData_t`: the published contributions of one axis.  The `float` members
are embedded as rationals. -/
structure pidAxisData_t where
  P : ℚ
  I : ℚ
  D : ℚ
  F : ℚ
  Sum : ℚ
  SumLim : ℚ

/-! ## The numeric fields of a profile -/

/-- A `uint8_t` field, as its width in bits and its value read as an integer. -/
def u8 (x : uint8_t) : Nat × Int := (8, (x.val : Int))

/-- A `uint16_t` field, as its width in bits and its value read as an integer. -/
def u16 (x : uint16_t) : Nat × Int := (16, (x.val : Int))

/-- The four members of a `pidf_t`, each with its width and value. -/
def pidf_t.numericFields (g : pidf_t) : List (Nat × Int) :=
  [u8 g.P, u8 g.I, u8 g.D, u16 g.F]

/-- Every numeric field of a `pidProfile_t` (all fields but the `char` buffer `profileName`),
in the order of the header, each with its declared width and its value. -/
def pidProfile_t.numericFields (p : pidProfile_t) : List (Nat × Int) :=
  [u16 p.yaw_lowpass_hz, u16 p.dterm_lowpass_hz, u16 p.dterm_notch_hz, u16 p.dterm_notch_cutoff]
  ++ (List.finRange pid_size).flatMap (fun i => (p.pid i).numericFields)
  ++ [u8 p.dterm_filter_type, u8 p.itermWindupPointPercent, u16 p.pidSumLimit,
      u16 p.pidSumLimitYaw, u8 p.levelAngleLimit, u8 p.horizon_tilt_effect,
      u8 p.horizon_tilt_expert_mode, u16 p.yawRateAccelLimit, u16 p.rateAccelLimit,
      u8 p.feedForwardTransition, u16 p.itermLimit, u16 p.dterm_lowpass2_hz,
      u8 p.iterm_rotation, u8 p.iterm_relax_type, u8 p.iterm_relax_cutoff, u8 p.iterm_relax,
      u8 p.acro_trainer_angle_limit, u8 p.acro_trainer_debug_axis, u8 p.acro_trainer_gain,
      u16 p.acro_trainer_lookahead_ms, u8 p.abs_control_gain, u8 p.abs_control_limit,
      u8 p.abs_control_error_limit, u8 p.abs_control_cutoff, u8 p.dterm_filter2_type,
      u16 p.dyn_lpf_dterm_min_hz, u16 p.dyn_lpf_dterm_max_hz, u8 p.thrustLinearization,
      u8 p.ff_boost,
      u8 p.ff_interpolate_sp, u8 p.ff_max_rate_limit, u8 p.ff_spike_limit,
      u8 p.ff_smooth_factor, u8 p.dyn_lpf_curve_expo, u8 p.vbat_sag_compensation,
      u16 p.yawColKf, u16 p.yawColPulseKf, u16 p.yawCycKf, u16 p.yawBaseThrust,
      u16 p.collective_ff_impulse_freq, u8 p.error_decay_always, u8 p.error_decay_rate,
      u8 p.rescue_collective, u8 p.rescue_collective_boost, u8 p.rescue_delay,
      u16 p.elevator_filter_gain, u8 p.elevator_filter_window_time,
      u8 p.elevator_filter_window_size, u8 p.elevator_filter_hz]

/-- Whether a name of the given length fits the `profileName` buffer together with its
terminating NUL byte. -/
def fitsProfileName (len : Nat) : Bool := decide (len + 1 ≤ profileName_size)

/-- A sample gain set. -/
def sampleGains : pidf_t := ⟨40, 85, 20, 90⟩

/-- A sample profile: the limits at their `PIDSUM_LIMIT` values, a three second rescue delay. -/
def sampleProfile : pidProfile_t where
  yaw_lowpass_hz := 0
  dterm_lowpass_hz := 150
  dterm_notch_hz := 0
  dterm_notch_cutoff := 0
  pid := fun _ => sampleGains
  dterm_filter_type := 0
  itermWindupPointPercent := 100
  pidSumLimit := 500
  pidSumLimitYaw := 500
  levelAngleLimit := 55
  horizon_tilt_effect := 75
  horizon_tilt_expert_mode := 0
  yawRateAccelLimit := 0
  rateAccelLimit := 0
  feedForwardTransition := 0
  itermLimit := 400
  dterm_lowpass2_hz := 150
  iterm_rotation := 0
  iterm_relax_type := 1
  iterm_relax_cutoff := 15
  iterm_relax := 2
  acro_trainer_angle_limit := 20
  acro_trainer_debug_axis := 0
  acro_trainer_gain := 75
  acro_trainer_lookahead_ms := 50
  abs_control_gain := 0
  abs_control_limit := 90
  abs_control_error_limit := 20
  abs_control_cutoff := 11
  dterm_filter2_type := 0
  dyn_lpf_dterm_min_hz := 70
  dyn_lpf_dterm_max_hz := 170
  thrustLinearization := 0
  ff_boost := 15
  profileName := fun _ => 0
  ff_interpolate_sp := 0
  ff_max_rate_limit := 100
  ff_spike_limit := 60
  ff_smooth_factor := 37
  dyn_lpf_curve_expo := 5
  vbat_sag_compensation := 0
  yawColKf := 0
  yawColPulseKf := 0
  yawCycKf := 0
  yawBaseThrust := 0
  collective_ff_impulse_freq := 100
  error_decay_always := 0
  error_decay_rate := 7
  rescue_collective := 100
  rescue_collective_boost := 25
  rescue_delay := 30
  elevator_filter_gain := 0
  elevator_filter_window_time := 0
  elevator_filter_window_size := 0
  elevator_filter_hz := 0


/-! ## The P contribution -/

/-- Modelled from the spec: the body of `pidController` is not part of the header.  Section 4.1:
"P = gain × error, where error = setpoint − rate, scaled by a fixed per-axis constant". -/
def pTerm (scale : ℚ) (gain : uint8_t) (setpoint rate : ℚ) : ℚ :=
  scale * (gain.val : ℚ) * (setpoint - rate)

/-! ## The published sum -/

/-- Modelled from the spec: the clamping helper is not part of the header.  A value clamped to
the closed interval from `low` to `high`. -/
def constrainf (amt low high : ℚ) : ℚ :=
  if amt < low then low else if amt > high then high else amt

/-- Modelled from the spec: the failure policy of section 4.1, "any non-finite intermediate is
treated as zero contribution for that term that tick".  A contribution is `none` when it is not
finite. -/
def finiteOrZero : Option ℚ → ℚ
  | some q => q
  | none => 0

/-- Modelled from the spec: the term computations of `pidController` are not part of the header.
The four contributions of one axis as they deliver them, section 4.1. -/
structure pidTerms where
  P : Option ℚ
  I : Option ℚ
  D : Option ℚ
  F : Option ℚ

/-- Modelled from the spec: the limit of an axis, section 4.1: "clamped to ±pidSumLimit (yaw uses
pidSumLimitYaw)". -/
def pidSumLimitOf (pidProfile : pidProfile_t) (axis : Fin pidData_size) : ℚ :=
  if axis.val = pidIndex_e.PID_YAW.toNat then (pidProfile.pidSumLimitYaw.val : ℚ)
  else (pidProfile.pidSumLimit.val : ℚ)

/-- Modelled from the spec: what one tick publishes for one axis, section 4.1: "Sum = P + I + D
+ F, clamped to ±pidSumLimit; SumLim is the pre-clamp value". -/
def pidAxisUpdate (limit : ℚ) (t : pidTerms) : pidAxisData_t :=
  let sumLim := finiteOrZero t.P + finiteOrZero t.I + finiteOrZero t.D + finiteOrZero t.F
  { P := finiteOrZero t.P
    I := finiteOrZero t.I
    D := finiteOrZero t.D
    F := finiteOrZero t.F
    Sum := constrainf sumLim (-limit) limit
    SumLim := sumLim }

/-- Modelled from the spec: the body of `pidController` is not part of the header.  One tick
takes the profile, the contributions the term computations produced for each axis, and the
previous contents of `pidData`, which it overwrites for every axis. -/
def pidController (pidProfile : pidProfile_t) (terms : Fin pidData_size → pidTerms)
    (_pidData : Fin pidData_size → pidAxisData_t) : Fin pidData_size → pidAxisData_t :=
  fun axis => pidAxisUpdate (pidSumLimitOf pidProfile axis) (terms axis)

/-! ## Iterm relax -/

/-- Modelled from the spec: the body of `applyItermRelax` is not part of the header.  Section
4.3 and section 8: the admitted fraction is 1 at zero setpoint rate, falls on a linear ramp, and
is 0 from `ITERM_RELAX_SETPOINT_THRESHOLD` on. -/
def itermRelaxFactor (setpointHpf : ℚ) : ℚ :=
  max 0 (1 - |setpointHpf| / ITERM_RELAX_SETPOINT_THRESHOLD)

/-- Modelled from the spec: the axes a relax mode governs, read off the mode names of section
4.3 (roll and pitch, or roll, pitch and yaw). -/
def itermRelaxOnAxis (mode : itermRelax_e) (axis : Nat) : Bool :=
  match mode with
  | .ITERM_RELAX_OFF => false
  | .ITERM_RELAX_RP => decide (axis < pidIndex_e.PID_YAW.toNat)
  | .ITERM_RELAX_RPY => true
  | .ITERM_RELAX_RP_INC => decide (axis < pidIndex_e.PID_YAW.toNat)
  | .ITERM_RELAX_RPY_INC => true
  | .ITERM_RELAX_COUNT => false

/-- Modelled from the spec: the body of `applyItermRelax` is not part of the header.  The error
rate admitted into the integrator.  For the setpoint type in the two non-incremental modes the
error rate is scaled by `itermRelaxFactor` of the high-passed setpoint rate; the specification
gives no rule for the gyro type and the incremental modes, whose result is the argument
`unspecified`. -/
def applyItermRelax (mode : itermRelax_e) (type : itermRelaxType_e) (axis : Nat)
    (setpointHpf unspecified itermErrorRate : ℚ) : ℚ :=
  if itermRelaxOnAxis mode axis then
    match mode, type with
    | .ITERM_RELAX_RP, .ITERM_RELAX_SETPOINT => itermErrorRate * itermRelaxFactor setpointHpf
    | .ITERM_RELAX_RPY, .ITERM_RELAX_SETPOINT => itermErrorRate * itermRelaxFactor setpointHpf
    | _, _ => unspecified
  else itermErrorRate

/-! ## The rescue sequencer -/

/-- The value of `rescue_delay` that disables the roll to upright (`pid.h`, line 159:
"35==disabe upright"). -/
def RESCUE_DELAY_DISABLE : Nat := 35

/-- Microseconds in one unit of `rescue_delay` (`pid.h`, line 158: "T/10", a tenth of a
second). -/
def RESCUE_DELAY_UNIT_US : Nat := 100000

/-- Modelled from the spec: the rescue sequencer is not part of the header.  The states of
section 4.8. -/
inductive RescuePhase where
  | Inactive
  | InvertedHold
  | RollToUpright
  | Disabled
  deriving DecidableEq, Repr

/-- Modelled from the spec: the phase and the time elapsed since activation, in microseconds.
The collective command of section 3 plays no part in the sequencing and is left out. -/
structure RescueState where
  phase : RescuePhase
  elapsedUs : Nat
  deriving DecidableEq, Repr

/-- Modelled from the spec: what drives the sequencer: the external activation and deactivation,
and a control tick of a given duration in microseconds. -/
inductive RescueInput where
  | activate
  | deactivate
  | tick (dtUs : Nat)
  deriving DecidableEq, Repr

/-- Modelled from the spec: the sequencer at start-up, not active and with no time elapsed. -/
def rescueInit : RescueState := ⟨.Inactive, 0⟩

/-- Modelled from the spec: one step of the rescue sequencer, section 4.8.  Activation enters
the inverted hold with no time elapsed; a tick in the inverted hold adds its duration and rolls
to upright once `rescue_delay` tenths of a second have elapsed, unless `rescue_delay` is the
disable value; deactivation returns to Inactive and clears the elapsed time.  The specification
names no transition into Disabled. -/
def rescueStep (pidProfile : pidProfile_t) (s : RescueState) : RescueInput → RescueState
  | .deactivate => ⟨.Inactive, 0⟩
  | .activate =>
    match s.phase with
    | .Inactive => ⟨.InvertedHold, 0⟩
    | _ => s
  | .tick dtUs =>
    match s.phase with
    | .InvertedHold =>
      if pidProfile.rescue_delay.val ≠ RESCUE_DELAY_DISABLE
          ∧ pidProfile.rescue_delay.val * RESCUE_DELAY_UNIT_US ≤ s.elapsedUs + dtUs then
        ⟨.RollToUpright, s.elapsedUs + dtUs⟩
      else ⟨.InvertedHold, s.elapsedUs + dtUs⟩
    | .RollToUpright => ⟨.RollToUpright, s.elapsedUs + dtUs⟩
    | .Inactive => s
    | .Disabled => s

/-- Modelled from the spec: the sequencer after a sequence of inputs, oldest first. -/
def rescueRun (pidProfile : pidProfile_t) (s : RescueState) (inputs : List RescueInput) :
    RescueState :=
  inputs.foldl (rescueStep pidProfile) s

/-- Whether the delay of the profile has expired after `elapsedUs` microseconds and the roll to
upright is not disabled. -/
def rescueDelayExpired (pidProfile : pidProfile_t) (elapsedUs : Nat) : Prop :=
  pidProfile.rescue_delay.val ≠ RESCUE_DELAY_DISABLE
    ∧ pidProfile.rescue_delay.val * RESCUE_DELAY_UNIT_US ≤ elapsedUs

instance (pidProfile : pidProfile_t) (elapsedUs : Nat) :
    Decidable (rescueDelayExpired pidProfile elapsedUs) := by
  unfold rescueDelayExpired
  infer_instance

/-- The invariant of an active rescue once a tick has been taken: the machine is holding or
rolling, and it is rolling exactly when the delay has expired. -/
def rescueTracking (pidProfile : pidProfile_t) (s : RescueState) : Prop :=
  (s.phase = .InvertedHold ∨ s.phase = .RollToUpright)
    ∧ (s.phase = .RollToUpright ↔ rescueDelayExpired pidProfile s.elapsedUs)

instance (pidProfile : pidProfile_t) (s : RescueState) :
    Decidable (rescueTracking pidProfile s) := by
  unfold rescueTracking
  infer_instance

/-- The sample profile with another `rescue_delay`. -/
def sampleProfileDelay (d : uint8_t) : pidProfile_t :=
  { sampleProfile with rescue_delay := d }


/-- The value a `uint16_t` field holds after a C assignment of `n`: reduction modulo `2 ^ 16`. -/
def toUint16 (n : Nat) : uint16_t := ⟨n % 65536, Nat.mod_lt n (by decide)⟩


end Heliflight

namespace Heliflight

/-! ## Constants and enumerations -/

/-- C2: read as exact decimals, the roll and pitch P scales are equal and the yaw P scale is ten
times the roll one, so for the same gain, setpoint and rate the yaw P contribution is ten times
the roll and the pitch contribution. -/
theorem pterm_scale_yaw_is_ten_times_roll :
    ROLL_PTERM_SCALE = PITCH_PTERM_SCALE ∧
    YAW_PTERM_SCALE = 10 * ROLL_PTERM_SCALE ∧
    ROLL_PTERM_SCALE = 32029 / 10000000 ∧
    YAW_PTERM_SCALE = 32029 / 1000000 ∧
    ∀ (gain : uint8_t) (setpoint rate : ℚ),
      pTerm YAW_PTERM_SCALE gain setpoint rate = 10 * pTerm ROLL_PTERM_SCALE gain setpoint rate ∧
      pTerm YAW_PTERM_SCALE gain setpoint rate
        = 10 * pTerm PITCH_PTERM_SCALE gain setpoint rate := by
  refine ⟨rfl, ?_, ?_, ?_, ?_⟩
  · norm_num [YAW_PTERM_SCALE, ROLL_PTERM_SCALE]
  · norm_num [ROLL_PTERM_SCALE]
  · norm_num [YAW_PTERM_SCALE]
  · intro gain setpoint rate
    constructor <;>
      · simp only [pTerm, YAW_PTERM_SCALE, ROLL_PTERM_SCALE, PITCH_PTERM_SCALE]
        ring

/-- C7: `itermRelax_e` has the five modes Off, RP, RPY, RP_INC, RPY_INC with the values 0 to 4 in
that order and `ITERM_RELAX_COUNT = 5`; `itermRelaxType_e` has the two values gyro (0) and
setpoint (1) with `ITERM_RELAX_TYPE_COUNT = 2`; every `uint8_t` value below the count is the
value of exactly one mode, respectively type. -/
theorem iterm_relax_enums_decode :
    (itermRelax_e.ITERM_RELAX_OFF.toNat = 0 ∧ itermRelax_e.ITERM_RELAX_RP.toNat = 1 ∧
      itermRelax_e.ITERM_RELAX_RPY.toNat = 2 ∧ itermRelax_e.ITERM_RELAX_RP_INC.toNat = 3 ∧
      itermRelax_e.ITERM_RELAX_RPY_INC.toNat = 4 ∧ itermRelax_e.ITERM_RELAX_COUNT.toNat = 5) ∧
    (∀ m : itermRelax_e, m.toNat < itermRelax_e.ITERM_RELAX_COUNT.toNat ↔
      m ∈ [itermRelax_e.ITERM_RELAX_OFF, itermRelax_e.ITERM_RELAX_RP,
        itermRelax_e.ITERM_RELAX_RPY, itermRelax_e.ITERM_RELAX_RP_INC,
        itermRelax_e.ITERM_RELAX_RPY_INC]) ∧
    (∀ v : uint8_t, v.val < itermRelax_e.ITERM_RELAX_COUNT.toNat →
      ∃! m : itermRelax_e, m.toNat = v.val) ∧
    (itermRelaxType_e.ITERM_RELAX_GYRO.toNat = 0 ∧
      itermRelaxType_e.ITERM_RELAX_SETPOINT.toNat = 1 ∧
      itermRelaxType_e.ITERM_RELAX_TYPE_COUNT.toNat = 2) ∧
    (∀ t : itermRelaxType_e, t.toNat < itermRelaxType_e.ITERM_RELAX_TYPE_COUNT.toNat ↔
      t ∈ [itermRelaxType_e.ITERM_RELAX_GYRO, itermRelaxType_e.ITERM_RELAX_SETPOINT]) ∧
    (∀ v : uint8_t, v.val < itermRelaxType_e.ITERM_RELAX_TYPE_COUNT.toNat →
      ∃! t : itermRelaxType_e, t.toNat = v.val) := by
  refine ⟨by decide, ?_, ?_, by decide, ?_, ?_⟩
  · intro m; cases m <;> decide
  · rintro ⟨v, hv⟩ h
    have h5 : v < 5 := h
    interval_cases v
    · exact ⟨.ITERM_RELAX_OFF, rfl, fun m hm => by cases m <;> simp_all [itermRelax_e.toNat]⟩
    · exact ⟨.ITERM_RELAX_RP, rfl, fun m hm => by cases m <;> simp_all [itermRelax_e.toNat]⟩
    · exact ⟨.ITERM_RELAX_RPY, rfl, fun m hm => by cases m <;> simp_all [itermRelax_e.toNat]⟩
    · exact ⟨.ITERM_RELAX_RP_INC, rfl, fun m hm => by cases m <;> simp_all [itermRelax_e.toNat]⟩
    · exact ⟨.ITERM_RELAX_RPY_INC, rfl, fun m hm => by cases m <;> simp_all [itermRelax_e.toNat]⟩
  · intro t; cases t <;> decide
  · rintro ⟨v, hv⟩ h
    have h2 : v < 2 := h
    interval_cases v
    · exact ⟨.ITERM_RELAX_GYRO, rfl, fun t ht => by
        cases t <;> simp_all [itermRelaxType_e.toNat]⟩
    · exact ⟨.ITERM_RELAX_SETPOINT, rfl, fun t ht => by
        cases t <;> simp_all [itermRelaxType_e.toNat]⟩

/-- C8: `MAX_PROFILE_NAME_LENGTH` is 8 and the `profileName` buffer has 9 bytes, so a name fits
together with its terminating NUL exactly when its length is at most 8; no name of length 9 or
more fits. -/
theorem profile_name_fits_iff_at_most_eight :
    MAX_PROFILE_NAME_LENGTH = 8 ∧ profileName_size = MAX_PROFILE_NAME_LENGTH + 1 ∧
    profileName_size = 9 ∧
    (∀ len : Nat, fitsProfileName len = true ↔ len ≤ MAX_PROFILE_NAME_LENGTH) ∧
    (∀ len : Nat, len ≤ 8 → fitsProfileName len = true) ∧
    (∀ len : Nat, 9 ≤ len → fitsProfileName len = false) := by
  refine ⟨rfl, rfl, rfl, ?_, ?_, ?_⟩
  · intro len
    simp only [fitsProfileName, profileName_size, MAX_PROFILE_NAME_LENGTH, decide_eq_true_eq]
    omega
  · intro len h
    simp only [fitsProfileName, profileName_size, MAX_PROFILE_NAME_LENGTH, decide_eq_true_eq]
    omega
  · intro len h
    simp only [fitsProfileName, profileName_size, MAX_PROFILE_NAME_LENGTH, decide_eq_false_iff_not]
    omega

/-- C8, at concrete lengths: a name of 8 characters fits, a name of 9 does not. -/
theorem profile_name_fits_witness :
    fitsProfileName 8 = true ∧ fitsProfileName 9 = false :=
  ⟨profile_name_fits_iff_at_most_eight.2.2.2.2.1 8 (by decide),
    profile_name_fits_iff_at_most_eight.2.2.2.2.2 9 (by decide)⟩

/-- C9: the axis identifiers have the values roll 0, pitch 1, yaw 2, level 3, mag 4 and the count
enumerator is 5; the five identifiers are exactly the in-bounds indices of the gain table
`pid[PID_ITEM_COUNT]`; roll, pitch and yaw are exactly the identifiers that are in-bounds
indices of `pidData[3]`, and level and mag are not. -/
theorem pid_index_bounds :
    (pidIndex_e.PID_ROLL.toNat = 0 ∧ pidIndex_e.PID_PITCH.toNat = 1 ∧
      pidIndex_e.PID_YAW.toNat = 2 ∧ pidIndex_e.PID_LEVEL.toNat = 3 ∧
      pidIndex_e.PID_MAG.toNat = 4 ∧ pidIndex_e.PID_ITEM_COUNT.toNat = 5) ∧
    pid_size = 5 ∧ pidData_size = 3 ∧
    (∀ e : pidIndex_e, e.toNat < pid_size ↔
      e ∈ [pidIndex_e.PID_ROLL, pidIndex_e.PID_PITCH, pidIndex_e.PID_YAW,
        pidIndex_e.PID_LEVEL, pidIndex_e.PID_MAG]) ∧
    (∀ i : Fin pid_size, ∃! e : pidIndex_e, e.toNat = i.val) ∧
    (∀ e : pidIndex_e, e.toNat < pidData_size ↔
      e ∈ [pidIndex_e.PID_ROLL, pidIndex_e.PID_PITCH, pidIndex_e.PID_YAW]) ∧
    (∀ i : Fin pidData_size, ∃! e : pidIndex_e, e.toNat = i.val) ∧
    ¬ pidIndex_e.PID_LEVEL.toNat < pidData_size ∧
    ¬ pidIndex_e.PID_MAG.toNat < pidData_size := by
  refine ⟨by decide, rfl, rfl, ?_, ?_, ?_, ?_, by decide, by decide⟩
  · intro e; cases e <;> decide
  · rintro ⟨i, hi⟩
    have h5 : i < 5 := hi
    interval_cases i
    · exact ⟨.PID_ROLL, rfl, fun e he => by cases e <;> simp_all [pidIndex_e.toNat]⟩
    · exact ⟨.PID_PITCH, rfl, fun e he => by cases e <;> simp_all [pidIndex_e.toNat]⟩
    · exact ⟨.PID_YAW, rfl, fun e he => by cases e <;> simp_all [pidIndex_e.toNat]⟩
    · exact ⟨.PID_LEVEL, rfl, fun e he => by cases e <;> simp_all [pidIndex_e.toNat]⟩
    · exact ⟨.PID_MAG, rfl, fun e he => by cases e <;> simp_all [pidIndex_e.toNat]⟩
  · intro e; cases e <;> decide
  · rintro ⟨i, hi⟩
    have h3 : i < 3 := hi
    interval_cases i
    · exact ⟨.PID_ROLL, rfl, fun e he => by cases e <;> simp_all [pidIndex_e.toNat]⟩
    · exact ⟨.PID_PITCH, rfl, fun e he => by cases e <;> simp_all [pidIndex_e.toNat]⟩
    · exact ⟨.PID_YAW, rfl, fun e he => by cases e <;> simp_all [pidIndex_e.toNat]⟩

/-- C10: the sum limit constants are ordered, 0 < MIN <= LIMIT <= MAX and MIN <= LIMIT_YAW <=
MAX (100 <= 500 <= 1000); MAX is below 2 ^ 16, so every limit of the permitted range is stored
in a `uint16_t` field unchanged and its clamp interval from -limit to +limit is not empty. -/
theorem pidsum_limit_constants_consistent :
    (0 < PIDSUM_LIMIT_MIN ∧ PIDSUM_LIMIT_MIN ≤ PIDSUM_LIMIT ∧ PIDSUM_LIMIT ≤ PIDSUM_LIMIT_MAX ∧
      PIDSUM_LIMIT_MIN ≤ PIDSUM_LIMIT_YAW ∧ PIDSUM_LIMIT_YAW ≤ PIDSUM_LIMIT_MAX) ∧
    (PIDSUM_LIMIT_MIN = 100 ∧ PIDSUM_LIMIT = 500 ∧ PIDSUM_LIMIT_YAW = 500 ∧
      PIDSUM_LIMIT_MAX = 1000) ∧
    PIDSUM_LIMIT_MAX < 2 ^ 16 ∧
    ∀ limit : Nat, PIDSUM_LIMIT_MIN ≤ limit → limit ≤ PIDSUM_LIMIT_MAX →
      (toUint16 limit).val = limit ∧ 0 < limit ∧
      (Set.Icc (-(limit : ℚ)) (limit : ℚ)).Nonempty := by
  refine ⟨by decide, by decide, by decide, ?_⟩
  intro limit hmin hmax
  simp only [PIDSUM_LIMIT_MIN, PIDSUM_LIMIT_MAX] at hmin hmax
  refine ⟨?_, by omega, ?_⟩
  · show limit % 65536 = limit
    omega
  · refine ⟨0, ?_, ?_⟩
    · simp
    · exact_mod_cast Nat.zero_le limit

/-- C10, at the default limit 500. -/
theorem pidsum_limit_constants_witness :
    (toUint16 500).val = 500 ∧ 0 < 500 ∧ (Set.Icc (-((500 : Nat) : ℚ)) ((500 : Nat) : ℚ)).Nonempty :=
  pidsum_limit_constants_consistent.2.2.2 500 (by decide) (by decide)

/-! ## The profile record -/

/-- A `uint8_t` field is 8 bits wide and its value lies in the unsigned range. -/
theorem u8_range (x : uint8_t) :
    ((u8 x).1 = 8 ∨ (u8 x).1 = 16) ∧ 0 ≤ (u8 x).2 ∧ (u8 x).2 < 2 ^ (u8 x).1 := by
  refine ⟨Or.inl rfl, ?_, ?_⟩
  · exact Int.natCast_nonneg _
  · show ((x.val : Nat) : Int) < 2 ^ 8
    have := x.isLt
    omega

/-- A `uint16_t` field is 16 bits wide and its value lies in the unsigned range. -/
theorem u16_range (x : uint16_t) :
    ((u16 x).1 = 8 ∨ (u16 x).1 = 16) ∧ 0 ≤ (u16 x).2 ∧ (u16 x).2 < 2 ^ (u16 x).1 := by
  refine ⟨Or.inr rfl, ?_, ?_⟩
  · exact Int.natCast_nonneg _
  · show ((x.val : Nat) : Int) < 2 ^ 16
    have := x.isLt
    omega

/-- C6: every profile has 73 numeric fields (the members of the five `pidf_t` entries included),
each an unsigned 8-bit or 16-bit integer, so each value is non-negative and below 2 to the
width; in particular no gain of any `pidf_t` entry and neither sum limit is negative. -/
theorem pid_profile_fields_unsigned (p : pidProfile_t) :
    p.numericFields.length = 73 ∧
    (∀ f ∈ p.numericFields, (f.1 = 8 ∨ f.1 = 16) ∧ 0 ≤ f.2 ∧ f.2 < 2 ^ f.1) ∧
    (∀ i : Fin pid_size, (0 : Int) ≤ (p.pid i).P.val ∧ (0 : Int) ≤ (p.pid i).I.val ∧
      (0 : Int) ≤ (p.pid i).D.val ∧ (0 : Int) ≤ (p.pid i).F.val) ∧
    (0 : Int) ≤ p.pidSumLimit.val ∧ (0 : Int) ≤ p.pidSumLimitYaw.val := by
  refine ⟨?_, ?_, ?_, Int.natCast_nonneg _, Int.natCast_nonneg _⟩
  · simp [pidProfile_t.numericFields, pidf_t.numericFields, List.finRange]
  · intro f hf
    simp only [pidProfile_t.numericFields, List.mem_append, List.mem_flatMap] at hf
    rcases hf with (hf | ⟨i, -, hf⟩) | hf
    all_goals
      revert f
      simp only [pidf_t.numericFields, List.forall_mem_cons, List.not_mem_nil, false_implies,
        implies_true, and_true]
      repeat' first
        | exact u8_range _
        | exact u16_range _
        | constructor
  · intro i
    exact ⟨Int.natCast_nonneg _, Int.natCast_nonneg _, Int.natCast_nonneg _,
      Int.natCast_nonneg _⟩

/-! ## The published sum -/

/-- A value clamped to a symmetric interval is within the limit in absolute value. -/
theorem constrainf_abs_le (amt limit : ℚ) (h : 0 ≤ limit) :
    |constrainf amt (-limit) limit| ≤ limit := by
  unfold constrainf
  split_ifs with h1 h2
  · rw [abs_neg, abs_of_nonneg h]
  · rw [abs_of_nonneg h]
  · rw [abs_le]
    exact ⟨not_lt.1 h1, not_lt.1 h2⟩

/-- The limit of an axis is never negative: it is an unsigned field of the profile. -/
theorem pidSumLimitOf_nonneg (pidProfile : pidProfile_t) (axis : Fin pidData_size) :
    0 ≤ pidSumLimitOf pidProfile axis := by
  unfold pidSumLimitOf
  split_ifs <;> exact Nat.cast_nonneg _

/-- C1: after a tick of `pidController`, for every profile, every axis and all contributions
(finite or not), `SumLim` is P + I + D + F, `Sum` is `SumLim` clamped to the closed interval
from -limit to +limit, and the absolute value of `Sum` is at most `pidSumLimit` on roll and
pitch and at most `pidSumLimitYaw` on yaw. -/
theorem pid_sum_within_limit (pidProfile : pidProfile_t) (terms : Fin pidData_size → pidTerms)
    (pidData : Fin pidData_size → pidAxisData_t) (axis : Fin pidData_size) :
    (pidController pidProfile terms pidData axis).SumLim
      = (pidController pidProfile terms pidData axis).P
        + (pidController pidProfile terms pidData axis).I
        + (pidController pidProfile terms pidData axis).D
        + (pidController pidProfile terms pidData axis).F ∧
    (pidController pidProfile terms pidData axis).Sum
      = constrainf (pidController pidProfile terms pidData axis).SumLim
          (-(pidSumLimitOf pidProfile axis)) (pidSumLimitOf pidProfile axis) ∧
    -(pidSumLimitOf pidProfile axis) ≤ (pidController pidProfile terms pidData axis).Sum ∧
    (pidController pidProfile terms pidData axis).Sum ≤ pidSumLimitOf pidProfile axis ∧
    (axis.val = pidIndex_e.PID_ROLL.toNat ∨ axis.val = pidIndex_e.PID_PITCH.toNat →
      |(pidController pidProfile terms pidData axis).Sum| ≤ (pidProfile.pidSumLimit.val : ℚ)) ∧
    (axis.val = pidIndex_e.PID_YAW.toNat →
      |(pidController pidProfile terms pidData axis).Sum|
        ≤ (pidProfile.pidSumLimitYaw.val : ℚ)) := by
  have hb := constrainf_abs_le
    (finiteOrZero (terms axis).P + finiteOrZero (terms axis).I + finiteOrZero (terms axis).D
      + finiteOrZero (terms axis).F)
    (pidSumLimitOf pidProfile axis) (pidSumLimitOf_nonneg pidProfile axis)
  refine ⟨rfl, rfl, (abs_le.1 hb).1, (abs_le.1 hb).2, ?_, ?_⟩
  · intro h
    have hl : pidSumLimitOf pidProfile axis = (pidProfile.pidSumLimit.val : ℚ) := by
      unfold pidSumLimitOf
      rw [if_neg]
      rcases h with h | h <;> rw [h] <;> decide
    rw [← hl]
    exact hb
  · intro h
    have hl : pidSumLimitOf pidProfile axis = (pidProfile.pidSumLimitYaw.val : ℚ) := by
      unfold pidSumLimitOf
      rw [if_pos h]
    rw [← hl]
    exact hb

/-- C1, at the sample profile on the yaw axis: contributions 900, non-finite, -100 and 3 sum to
803 and are published as the limit 500. -/
theorem pid_sum_within_limit_witness :
    (pidController sampleProfile (fun _ => ⟨some 900, none, some (-100), some 3⟩)
      (fun _ => ⟨0, 0, 0, 0, 0, 0⟩) 2).SumLim = 803 ∧
    (pidController sampleProfile (fun _ => ⟨some 900, none, some (-100), some 3⟩)
      (fun _ => ⟨0, 0, 0, 0, 0, 0⟩) 2).Sum = 500 ∧
    |(pidController sampleProfile (fun _ => ⟨some 900, none, some (-100), some 3⟩)
      (fun _ => ⟨0, 0, 0, 0, 0, 0⟩) 2).Sum| ≤ ((sampleProfile.pidSumLimitYaw.val : Nat) : ℚ) := by
  refine ⟨?_, ?_, (pid_sum_within_limit sampleProfile _ _ 2).2.2.2.2.2 rfl⟩
  · norm_num [pidController, pidAxisUpdate, finiteOrZero]
  · have h : ((sampleProfile.pidSumLimitYaw.val : Nat) : ℚ) = 500 := by
      have h0 : sampleProfile.pidSumLimitYaw.val = 500 := rfl
      rw [h0]
      norm_num
    norm_num [pidController, pidAxisUpdate, finiteOrZero, constrainf, pidSumLimitOf,
      pidIndex_e.toNat, h]

/-! ## Iterm relax -/

/-- The admitted fraction lies between 0 and 1. -/
theorem itermRelaxFactor_range (r : ℚ) : 0 ≤ itermRelaxFactor r ∧ itermRelaxFactor r ≤ 1 := by
  unfold itermRelaxFactor ITERM_RELAX_SETPOINT_THRESHOLD
  refine ⟨le_max_left _ _, max_le (by norm_num) ?_⟩
  have : 0 ≤ |r| / 40.0 := div_nonneg (abs_nonneg r) (by norm_num)
  linarith

/-- The admitted fraction does not increase with the magnitude of the setpoint rate. -/
theorem itermRelaxFactor_antitone (r₁ r₂ : ℚ) (h : |r₁| ≤ |r₂|) :
    itermRelaxFactor r₂ ≤ itermRelaxFactor r₁ := by
  unfold itermRelaxFactor ITERM_RELAX_SETPOINT_THRESHOLD
  apply max_le_max le_rfl
  have : |r₁| / 40.0 ≤ |r₂| / 40.0 := div_le_div_of_nonneg_right h (by norm_num)
  linarith

/-- C3: in mode `ITERM_RELAX_RPY` with the setpoint type, on every axis the admitted error rate
is the error rate times a fraction of the high-passed setpoint rate r; the fraction is 1 at
r = 0, is 0 whenever |r| is at least the threshold 40 (so for every |r| above it), does not
increase with |r|, and is 1 - |r| / 40 on the ramp in between. -/
theorem iterm_relax_rpy_setpoint_ramp :
    ITERM_RELAX_SETPOINT_THRESHOLD = 40 ∧
    (∀ (axis : Nat) (r unspecified e : ℚ),
      applyItermRelax .ITERM_RELAX_RPY .ITERM_RELAX_SETPOINT axis r unspecified e
        = e * itermRelaxFactor r) ∧
    itermRelaxFactor 0 = 1 ∧
    (∀ (axis : Nat) (unspecified e : ℚ),
      applyItermRelax .ITERM_RELAX_RPY .ITERM_RELAX_SETPOINT axis 0 unspecified e = e) ∧
    (∀ r : ℚ, ITERM_RELAX_SETPOINT_THRESHOLD ≤ |r| → itermRelaxFactor r = 0) ∧
    (∀ (axis : Nat) (r unspecified e : ℚ), ITERM_RELAX_SETPOINT_THRESHOLD < |r| →
      applyItermRelax .ITERM_RELAX_RPY .ITERM_RELAX_SETPOINT axis r unspecified e = 0) ∧
    (∀ r₁ r₂ : ℚ, |r₁| ≤ |r₂| → itermRelaxFactor r₂ ≤ itermRelaxFactor r₁) ∧
    (∀ r : ℚ, |r| ≤ ITERM_RELAX_SETPOINT_THRESHOLD →
      itermRelaxFactor r = 1 - |r| / ITERM_RELAX_SETPOINT_THRESHOLD) := by
  have h40 : ITERM_RELAX_SETPOINT_THRESHOLD = 40 := by
    norm_num [ITERM_RELAX_SETPOINT_THRESHOLD]
  have hzero : ∀ r : ℚ, ITERM_RELAX_SETPOINT_THRESHOLD ≤ |r| → itermRelaxFactor r = 0 := by
    intro r hr
    rw [h40] at hr
    unfold itermRelaxFactor
    rw [h40]
    apply max_eq_left
    have : 1 ≤ |r| / 40 := by
      rw [le_div_iff₀ (by norm_num)]
      linarith
    linarith
  have hone : itermRelaxFactor 0 = 1 := by
    norm_num [itermRelaxFactor]
  refine ⟨h40, fun _ _ _ _ => rfl, hone, ?_, hzero, ?_, itermRelaxFactor_antitone, ?_⟩
  · intro axis u e
    show e * itermRelaxFactor 0 = e
    rw [hone, mul_one]
  · intro axis r u e hr
    show e * itermRelaxFactor r = 0
    rw [hzero r hr.le, mul_zero]
  · intro r hr
    rw [h40] at hr
    unfold itermRelaxFactor
    rw [h40]
    apply max_eq_right
    have : |r| / 40 ≤ 1 := by
      rw [div_le_iff₀ (by norm_num)]
      linarith
    linarith

/-- C3, at concrete rates on the yaw axis: an error rate of 100 is admitted in full at rate 0,
by half at rate 20 and not at all at rate -50, and the fraction at 30 is below that at 10. -/
theorem iterm_relax_rpy_setpoint_witness :
    applyItermRelax .ITERM_RELAX_RPY .ITERM_RELAX_SETPOINT 2 0 7 100 = 100 ∧
    applyItermRelax .ITERM_RELAX_RPY .ITERM_RELAX_SETPOINT 2 (-50) 7 100 = 0 ∧
    itermRelaxFactor 30 ≤ itermRelaxFactor 10 ∧
    itermRelaxFactor 20 = 1 - |(20 : ℚ)| / ITERM_RELAX_SETPOINT_THRESHOLD :=
  ⟨iterm_relax_rpy_setpoint_ramp.2.2.2.1 2 7 100,
    iterm_relax_rpy_setpoint_ramp.2.2.2.2.2.1 2 (-50) 7 100
      (by norm_num [ITERM_RELAX_SETPOINT_THRESHOLD, abs_of_neg]),
    iterm_relax_rpy_setpoint_ramp.2.2.2.2.2.2.1 10 30 (by norm_num [abs_of_pos]),
    iterm_relax_rpy_setpoint_ramp.2.2.2.2.2.2.2 20
      (by norm_num [ITERM_RELAX_SETPOINT_THRESHOLD, abs_of_pos])⟩

/-! ## The rescue sequencer -/

/-- A tick in the inverted hold rolls to upright exactly when the delay has expired. -/
theorem rescueStep_tick_hold (pidProfile : pidProfile_t) (s : RescueState) (dtUs : Nat)
    (h : s.phase = .InvertedHold) :
    ((rescueStep pidProfile s (.tick dtUs)).phase = .RollToUpright
      ↔ rescueDelayExpired pidProfile (s.elapsedUs + dtUs))
    ∧ (rescueStep pidProfile s (.tick dtUs)).elapsedUs = s.elapsedUs + dtUs
    ∧ ((rescueStep pidProfile s (.tick dtUs)).phase = .InvertedHold
      ∨ (rescueStep pidProfile s (.tick dtUs)).phase = .RollToUpright) := by
  simp only [rescueStep, h, rescueDelayExpired]
  split_ifs with hc
  · simp [hc]
  · simp [hc]

/-- A tick keeps the tracking invariant and adds its duration to the elapsed time. -/
theorem rescueStep_tick_tracking (pidProfile : pidProfile_t) (s : RescueState) (dtUs : Nat)
    (h : rescueTracking pidProfile s) :
    rescueTracking pidProfile (rescueStep pidProfile s (.tick dtUs))
    ∧ (rescueStep pidProfile s (.tick dtUs)).elapsedUs = s.elapsedUs + dtUs := by
  obtain ⟨hph, hiff⟩ := h
  rcases hph with hph | hph
  · obtain ⟨h1, h2, h3⟩ := rescueStep_tick_hold pidProfile s dtUs hph
    exact ⟨⟨h3, by rw [h1, h2]⟩, h2⟩
  · have hexp := hiff.1 hph
    have hstep : rescueStep pidProfile s (.tick dtUs) = ⟨.RollToUpright, s.elapsedUs + dtUs⟩ := by
      simp only [rescueStep, hph]
    rw [hstep]
    refine ⟨⟨Or.inr rfl, ?_⟩, rfl⟩
    constructor
    · intro _
      exact ⟨hexp.1, le_trans hexp.2 (Nat.le_add_right _ _)⟩
    · intro _
      rfl

/-- A run of ticks keeps the tracking invariant and adds the sum of its durations. -/
theorem rescueRun_ticks_tracking (pidProfile : pidProfile_t) (dts : List Nat) (s : RescueState)
    (h : rescueTracking pidProfile s) :
    rescueTracking pidProfile (rescueRun pidProfile s (dts.map RescueInput.tick))
    ∧ (rescueRun pidProfile s (dts.map RescueInput.tick)).elapsedUs = s.elapsedUs + dts.sum := by
  induction dts generalizing s with
  | nil => exact ⟨h, by simp [rescueRun]⟩
  | cons d ds ih =>
    obtain ⟨ht, he⟩ := rescueStep_tick_tracking pidProfile s d h
    obtain ⟨ht2, he2⟩ := ih (rescueStep pidProfile s (.tick d)) ht
    have hrun : rescueRun pidProfile s ((d :: ds).map RescueInput.tick)
        = rescueRun pidProfile (rescueStep pidProfile s (.tick d)) (ds.map RescueInput.tick) := by
      simp [rescueRun]
    rw [hrun]
    refine ⟨ht2, ?_⟩
    rw [he2, he, List.sum_cons, Nat.add_assoc]

/-- With the disable value, no input takes a machine that is not rolling to upright into the
roll. -/
theorem rescueStep_disable (pidProfile : pidProfile_t) (s : RescueState) (i : RescueInput)
    (hd : pidProfile.rescue_delay.val = RESCUE_DELAY_DISABLE)
    (h : s.phase ≠ .RollToUpright) :
    (rescueStep pidProfile s i).phase ≠ .RollToUpright := by
  cases i with
  | deactivate => simp [rescueStep]
  | activate =>
    simp only [rescueStep]
    split
    · simp
    · exact h
  | tick dtUs =>
    simp only [rescueStep]
    split
    · rw [if_neg (fun hc => hc.1 hd)]
      simp
    · rename_i hp
      exact absurd hp h
    · exact h
    · exact h

/-- With the disable value, no run of inputs reaches the roll to upright from a state that is
not in it. -/
theorem rescueRun_disable (pidProfile : pidProfile_t) (inputs : List RescueInput)
    (s : RescueState) (hd : pidProfile.rescue_delay.val = RESCUE_DELAY_DISABLE)
    (h : s.phase ≠ .RollToUpright) :
    (rescueRun pidProfile s inputs).phase ≠ .RollToUpright := by
  induction inputs generalizing s with
  | nil => exact h
  | cons i is ih =>
    have hrun : rescueRun pidProfile s (i :: is)
        = rescueRun pidProfile (rescueStep pidProfile s i) is := by
      simp [rescueRun]
    rw [hrun]
    exact ih _ (rescueStep_disable pidProfile s i hd h)

/-- C5: (1) a tick taken in the inverted hold moves to roll-to-upright exactly when
`rescue_delay` is not the disable value 35 and `rescue_delay` tenths of a second have elapsed;
(2) after activation and at least one tick the machine is in roll-to-upright exactly when
`rescue_delay` is not 35 and the ticks add up to at least `rescue_delay` tenths of a second;
(3) with `rescue_delay = 0` it is in roll-to-upright on the first tick after activation;
(4) with `rescue_delay = 35` no sequence of inputs from start-up reaches roll-to-upright. -/
theorem rescue_roll_to_upright_timing (pidProfile : pidProfile_t) :
    (∀ (s : RescueState) (dtUs : Nat), s.phase = .InvertedHold →
      ((rescueStep pidProfile s (.tick dtUs)).phase = .RollToUpright ↔
        pidProfile.rescue_delay.val ≠ 35 ∧
          pidProfile.rescue_delay.val * 100000 ≤ s.elapsedUs + dtUs)) ∧
    (∀ (d : Nat) (ds : List Nat),
      ((rescueRun pidProfile rescueInit
          (.activate :: (d :: ds).map RescueInput.tick)).phase = .RollToUpright ↔
        pidProfile.rescue_delay.val ≠ 35 ∧
          pidProfile.rescue_delay.val * 100000 ≤ (d :: ds).sum)) ∧
    (pidProfile.rescue_delay.val = 0 → ∀ dtUs : Nat,
      (rescueRun pidProfile rescueInit [.activate, .tick dtUs]).phase = .RollToUpright) ∧
    (pidProfile.rescue_delay.val = 35 → ∀ inputs : List RescueInput,
      (rescueRun pidProfile rescueInit inputs).phase ≠ .RollToUpright) := by
  have hseq : ∀ (d : Nat) (ds : List Nat),
      ((rescueRun pidProfile rescueInit
          (.activate :: (d :: ds).map RescueInput.tick)).phase = .RollToUpright ↔
        rescueDelayExpired pidProfile (d :: ds).sum) := by
    intro d ds
    have hact : rescueStep pidProfile rescueInit .activate = ⟨.InvertedHold, 0⟩ := rfl
    obtain ⟨h1, h2, h3⟩ :=
      rescueStep_tick_hold pidProfile ⟨.InvertedHold, 0⟩ d rfl
    have htr : rescueTracking pidProfile
        (rescueStep pidProfile ⟨.InvertedHold, 0⟩ (.tick d)) := ⟨h3, by rw [h1, h2]⟩
    obtain ⟨ht, he⟩ := rescueRun_ticks_tracking pidProfile ds _ htr
    have hrun : rescueRun pidProfile rescueInit (.activate :: (d :: ds).map RescueInput.tick)
        = rescueRun pidProfile (rescueStep pidProfile ⟨.InvertedHold, 0⟩ (.tick d))
            (ds.map RescueInput.tick) := by
      simp [rescueRun, hact]
    rw [hrun, ht.2, he, h2, List.sum_cons, Nat.zero_add]
  refine ⟨?_, hseq, ?_, ?_⟩
  · intro s dtUs h
    exact (rescueStep_tick_hold pidProfile s dtUs h).1
  · intro h0 dtUs
    have := (hseq dtUs []).2 ⟨by rw [h0]; decide, by rw [h0]; simp⟩
    simpa using this
  · intro h35 inputs
    exact rescueRun_disable pidProfile inputs rescueInit h35 (by decide)

/-- C5, at concrete profiles: with `rescue_delay = 30` the roll starts on the tick that
completes 3 s and not on the one before; with 0 it starts on the first tick, even one of no
duration; with 35 it has not started after 100 s. -/
theorem rescue_roll_to_upright_witness :
    (rescueRun (sampleProfileDelay 30) rescueInit
      (.activate :: (List.replicate 30 100000).map RescueInput.tick)).phase = .RollToUpright ∧
    (rescueRun (sampleProfileDelay 30) rescueInit
      (.activate :: (List.replicate 29 100000).map RescueInput.tick)).phase ≠ .RollToUpright ∧
    (rescueRun (sampleProfileDelay 0) rescueInit [.activate, .tick 0]).phase = .RollToUpright ∧
    (rescueRun (sampleProfileDelay 35) rescueInit
      (.activate :: (List.replicate 1000 100000).map RescueInput.tick)).phase
        ≠ .RollToUpright :=
  ⟨((rescue_roll_to_upright_timing (sampleProfileDelay 30)).2.1 100000
      (List.replicate 29 100000)).2 (by decide),
    fun h => absurd (((rescue_roll_to_upright_timing (sampleProfileDelay 30)).2.1 100000
      (List.replicate 28 100000)).1 h) (by decide),
    (rescue_roll_to_upright_timing (sampleProfileDelay 0)).2.2.1 rfl 0,
    (rescue_roll_to_upright_timing (sampleProfileDelay 35)).2.2.2 rfl _⟩

end Heliflight
